import Mathlib

/-!
Shallow embedding of the analytics Lambda in `lambda_function.py`: JSON
flattening with row explosion, partition derivation, the idempotent Parquet
writer and the batch orchestrator, together with proofs about the
specification claims.  External collaborators (S3, `json.loads`,
`datetime.fromisoformat`, `pandas.to_datetime`, `urllib.unquote_plus`) are
modelled as explicit function parameters collected in `Env`.
-/

namespace LambdaFn

/-- JSON values as produced by `json.loads`.  Numeric literals are modelled as
integers (no claim involves floating point).  Object field lists model parsed
Python dicts: keys are unique in any value produced by `json.loads`, and
lookup takes the first match. -/
inductive JsonValue where
  | null
  | bool (b : Bool)
  | int (n : Int)
  | str (s : String)
  | arr (elems : List JsonValue)
  | obj (fields : List (String × JsonValue))
deriving Repr

/-- Python truthiness (`bool(x)`) on JSON-shaped values. -/
def truthy : JsonValue → Bool
  | .null => false
  | .bool b => b
  | .int n => n != 0
  | .str s => s != ""
  | .arr xs => !xs.isEmpty
  | .obj fs => !fs.isEmpty

def isObj : JsonValue → Bool
  | .obj _ => true
  | _ => false

def isArr : JsonValue → Bool
  | .arr _ => true
  | _ => false

def asArr : JsonValue → List JsonValue
  | .arr xs => xs
  | _ => []

/-- `v and isinstance(v, list) and len(v) > 0` holds exactly for non-empty
JSON arrays. -/
def nonEmptyArr : JsonValue → Bool
  | .arr (_ :: _) => true
  | _ => false

/-! String primitives, implemented structurally over character lists so that
every concrete invocation evaluates definitionally.  They model the Python
`str` operations the code uses (`in`, `startswith`, slicing, `split`,
`replace`, `join`); all call sites use non-empty separators and patterns. -/

def listPre : List Char → List Char → Bool
  | [], _ => true
  | _ :: _, [] => false
  | a :: as, b :: bs => a == b && listPre as bs

def listInfix (n h : List Char) : Bool :=
  match h with
  | [] => n.isEmpty
  | _ :: t => listPre n h || listInfix n t

/-- Python `s.startswith(t)`. -/
def strStarts (s t : String) : Bool :=
  listPre t.data s.data

/-- Python `s[n:]` (by code points). -/
def strDrop (s : String) (n : Nat) : String :=
  ⟨s.data.drop n⟩

def splitOnChars (fuel : Nat) (sep s acc : List Char) : List (List Char) :=
  match fuel, s with
  | _, [] => [acc.reverse]
  | 0, s => [acc.reverse ++ s]
  | fuel + 1, c :: rest =>
    if listPre sep s then
      acc.reverse :: splitOnChars fuel sep (s.drop sep.length) []
    else splitOnChars fuel sep rest (c :: acc)

/-- Python `s.split(sep)` for a non-empty separator. -/
def strSplitOn (s sep : String) : List String :=
  (splitOnChars (s.data.length + 1) sep.data s.data []).map (fun l => ⟨l⟩)

/-- Python `sep.join(parts)`. -/
def strIntercalate (sep : String) : List String → String
  | [] => ""
  | [x] => x
  | x :: xs => x ++ sep ++ strIntercalate sep xs

def replaceChars (fuel : Nat) (pat rep s : List Char) : List Char :=
  match fuel, s with
  | _, [] => []
  | 0, s => s
  | fuel + 1, c :: rest =>
    if listPre pat s && !pat.isEmpty then
      rep ++ replaceChars fuel pat rep (s.drop pat.length)
    else c :: replaceChars fuel pat rep rest

/-- Python `s.replace(pat, rep)`: every non-overlapping occurrence, left to
right. -/
def strReplace (s pat rep : String) : String :=
  ⟨replaceChars s.data.length pat.data rep.data s.data⟩

/-- Substring test, modelling Python's `needle in haystack` on strings (used
with non-empty literal needles only). -/
def strContains (hay needle : String) : Bool :=
  listInfix needle.data hay.data

/-- Python `str()` rendering, used only where the code interpolates a value of
unconstrained type into a string.  Container renderings are schematic; no
claim depends on them. -/
def pyStr : JsonValue → String
  | .str s => s
  | .int n => toString n
  | .bool b => if b then "True" else "False"
  | .null => "None"
  | .arr _ => "[...]"
  | .obj _ => "\x7b...\x7d"

/-- Python membership `needle in v` for a string needle: key lookup on dicts,
element equality on lists, substring on strings, `TypeError` otherwise. -/
def pyContains (v : JsonValue) (needle : String) : Except Unit Bool :=
  match v with
  | .obj fs => .ok (fs.any (fun p => p.1 == needle))
  | .arr xs => .ok (xs.any (fun x => match x with | .str s => s == needle | _ => false))
  | .str s => .ok (strContains s needle)
  | _ => .error ()

/-- Python subscription `v[k]` with a string key: `KeyError` when a dict lacks
the key, `TypeError` on any non-dict. -/
def getItem (v : JsonValue) (k : String) : Except Unit JsonValue :=
  match v with
  | .obj fs =>
    match fs.find? (fun p => p.1 == k) with
    | some p => .ok p.2
    | none => .error ()
  | _ => .error ()

/-- Python `v.get(k)`: the stored value (or `None` when absent) on a dict,
`AttributeError` on any non-dict.  A stored JSON `null` and an absent key are
both `None`, exactly as in Python. -/
def dictGet (v : JsonValue) (k : String) : Except Unit JsonValue :=
  match v with
  | .obj fs =>
    match fs.find? (fun p => p.1 == k) with
    | some p => .ok p.2
    | none => .ok .null
  | _ => .error ()

/-- Python `v.get(k, d)`: the default only replaces an absent key, not a
stored `null`. -/
def dictGetD (v : JsonValue) (k : String) (d : JsonValue) : Except Unit JsonValue :=
  match v with
  | .obj fs =>
    match fs.find? (fun p => p.1 == k) with
    | some p => .ok p.2
    | none => .ok d
  | _ => .error ()

/-- Key membership on a value already known to be a dict (`k in v`). -/
def objHasKey (v : JsonValue) (k : String) : Bool :=
  match v with
  | .obj fs => fs.any (fun p => p.1 == k)
  | _ => false

/-- Python `a <= b` restricted to the JSON-shaped values on which it does not
raise: numbers and booleans (`bool` is an int subtype). `TypeError`
otherwise. -/
def pyLe : JsonValue → JsonValue → Except Unit Bool
  | .int a, .int b => .ok (a ≤ b)
  | .int a, .bool b => .ok (a ≤ (if b then 1 else 0))
  | .bool a, .int b => .ok ((if a then (1 : Int) else 0) ≤ b)
  | .bool a, .bool b => .ok ((if a then (1 : Int) else 0) ≤ (if b then 1 else 0))
  | _, _ => .error ()

/-! ### Rows and DataFrames

A row models a Python dict with string keys in insertion order; a `DataFrame`
models the pandas frame built from a list of such dicts: its column list is
the union of the row keys in order of first appearance. -/

abbrev Row := List (String × JsonValue)

def rowLookup (r : Row) (k : String) : Option JsonValue :=
  (r.find? (fun p => p.1 == k)).map (fun p => p.2)

def rowLookupD (r : Row) (k : String) : JsonValue :=
  (rowLookup r k).getD .null

/-- Python dict assignment `r[k] = v`: overwrite in place when the key exists,
append otherwise. -/
def rowSet (r : Row) (k : String) (v : JsonValue) : Row :=
  if r.any (fun p => p.1 == k) then
    r.map (fun p => if p.1 == k then (k, v) else p)
  else r ++ [(k, v)]

/-- Python dict merge `\x7b**a, **b\x7d`. -/
def rowMerge (a b : Row) : Row :=
  b.foldl (fun acc p => rowSet acc p.1 p.2) a

structure DataFrame where
  columns : List String
  rows : List Row
deriving Repr

def dfColumns (rows : List Row) : List String :=
  rows.foldl (fun acc r =>
    r.foldl (fun acc2 p => if acc2.contains p.1 then acc2 else acc2 ++ [p.1]) acc) []

def mkDataFrame (rows : List Row) : DataFrame :=
  { columns := dfColumns rows, rows := rows }

/-- `df[name] = v` with a scalar `v`: broadcast to every row, appending the
column when new. -/
def setColumn (df : DataFrame) (name : String) (v : JsonValue) : DataFrame :=
  { columns := if df.columns.contains name then df.columns else df.columns ++ [name]
    rows := df.rows.map (fun r => rowSet r name v) }

/-- `df[cols]`: column selection.  The callers select only columns previously
ensured to exist, so a per-row missing key (impossible there) reads as null. -/
def selectColumns (df : DataFrame) (cols : List String) : DataFrame :=
  { columns := cols
    rows := df.rows.map (fun r => cols.map (fun c => (c, rowLookupD r c))) }

/-! ### Flattener (`flatten_json`) -/

/-- Error outcomes of `flatten_json`: `value` for the `ValueError` guards,
`py` for any other Python exception surfacing from dynamic access (both are
unclassified in the handler), `transform` for the raised
`DataTransformationError`. -/
inductive FlatErr where
  | value
  | py
  | transform
deriving DecidableEq, Repr

def liftPy : Except Unit α → Except FlatErr α
  | .ok a => .ok a
  | .error _ => .error .py

/-- `status_code is not None and 200 <= status_code <= 299`, with Python's
short-circuit chained comparison. -/
def statusSkip (sc : JsonValue) : Except Unit Bool :=
  match sc with
  | .null => .ok false
  | _ =>
    match pyLe (.int 200) sc with
    | .error e => .error e
    | .ok false => .ok false
    | .ok true => pyLe sc (.int 299)

/-- `details.get('text') if isinstance(details, dict) else details`; on a
dict, `dictGet` cannot fail, so the error arm is unreachable. -/
def detOf (details : JsonValue) : JsonValue :=
  match details with
  | .obj _ => (match dictGet details "text" with | .ok t => t | .error _ => .null)
  | _ => details

/-- One row per issue: severity, code and detail (a dict's `text` field, else
the raw value) are appended to a copy of the base row. -/
def issueRow (row : Row) (issue : JsonValue) : Except Unit Row :=
  match dictGet issue "severity" with
  | .error e => .error e
  | .ok sev =>
    match dictGet issue "code" with
    | .error e => .error e
    | .ok code =>
      match dictGetD issue "details" (.obj []) with
      | .error e => .error e
      | .ok details =>
        .ok (rowSet (rowSet (rowSet row "operationOutcomeSeverity" sev)
              "operationOutcomeCode" code) "operationOutcomeDetail" (detOf details))

def issue_rows (row : Row) : List JsonValue → Except Unit (List Row)
  | [] => .ok []
  | iss :: rest =>
    match issueRow row iss with
    | .error e => .error e
    | .ok r =>
      match issue_rows row rest with
      | .error e => .error e
      | .ok rs => .ok (r :: rs)

/-- The row emitted when there is no usable `operationOutcome.issue` list. -/
def rowWithNullOutcome (row : Row) : Row :=
  rowSet (rowSet (rowSet row "operationOutcomeSeverity" .null)
    "operationOutcomeCode" .null) "operationOutcomeDetail" .null

/-- Rows contributed by one response item: none when the status code is 2xx,
one per issue when `operationOutcome.issue` is a non-empty list, a single
null-outcome row otherwise. -/
def flatten_item (metaRow : Row) (item : JsonValue) : Except Unit (List Row) :=
  match dictGet item "statusCode" with
  | .error e => .error e
  | .ok sc =>
    match statusSkip sc with
    | .error e => .error e
    | .ok true => .ok []
    | .ok false =>
      match dictGet item "requestResourceId" with
      | .error e => .error e
      | .ok rrid =>
        match dictGet item "resourceLocation" with
        | .error e => .error e
        | .ok rloc =>
          let row := rowMerge metaRow
            [("requestResourceId", rrid), ("statusCode", sc),
             ("operationOutcomeLocation", rloc)]
          match dictGet item "operationOutcome" with
          | .error e => .error e
          | .ok oo =>
            if truthy oo && isObj oo then
              match dictGetD oo "issue" (.arr []) with
              | .error e => .error e
              | .ok issuesV =>
                -- `issues and isinstance(issues, list) and len(issues) > 0`
                -- holds exactly for a non-empty JSON array
                match issuesV with
                | .arr (i :: is) => issue_rows row (i :: is)
                | _ => .ok [rowWithNullOutcome row]
            else .ok [rowWithNullOutcome row]

def flatten_rows (metaRow : Row) : List JsonValue → Except Unit (List Row)
  | [] => .ok []
  | item :: rest =>
    match flatten_item metaRow item with
    | .error e => .error e
    | .ok rs =>
      match flatten_rows metaRow rest with
      | .error e => .error e
      | .ok rest2 => .ok (rs ++ rest2)

/-- `meta.get('approximateReceiveCount') or meta.get('approxmiateReceiveCount')`. -/
def receive_count_of (meta : JsonValue) : Except Unit JsonValue :=
  match dictGet meta "approximateReceiveCount" with
  | .error e => .error e
  | .ok a => if truthy a then .ok a else dictGet meta "approxmiateReceiveCount"

/-- Guards and shared-metadata extraction of `flatten_json`: the `ValueError`
checks on the payload shape, then the `meta_data` dict built once per file. -/
def flatten_setup (payload : JsonValue) (s3_filename source : String) :
    Except FlatErr (Row × List JsonValue) :=
  if !truthy payload then .error .value
  else
    match liftPy (pyContains payload "meta") with
    | .error e => .error e
    | .ok false => .error .value
    | .ok true =>
      match liftPy (pyContains payload "response") with
      | .error e => .error e
      | .ok false => .error .value
      | .ok true =>
        match liftPy (getItem payload "meta") with
        | .error e => .error e
        | .ok meta =>
          match liftPy (getItem payload "response") with
          | .error e => .error e
          | .ok response_items =>
            if !isArr response_items then .error .value
            else
              match liftPy (receive_count_of meta) with
              | .error e => .error e
              | .ok receive_count =>
                match liftPy (dictGet meta "organizationId") with
                | .error e => .error e
                | .ok customerId =>
                  match liftPy (dictGet meta "patientId") with
                  | .error e => .error e
                  | .ok patientId =>
                    match liftPy (dictGet meta "sourceFhirServer") with
                    | .error e => .error e
                    | .ok sourceFhirServer =>
                      match liftPy (dictGet meta "bundleResourceType") with
                      | .error e => .error e
                      | .ok bundleResourceType =>
                        match liftPy (dictGet meta "responseTs") with
                        | .error e => .error e
                        | .ok responseTs =>
                          match liftPy (dictGet meta "latencyMs") with
                          | .error e => .error e
                          | .ok latencyMs =>
                            match liftPy (dictGet meta "datastoreId") with
                            | .error e => .error e
                            | .ok datastoreId =>
                              .ok ([("s3Filename", .str s3_filename),
                                    ("source", .str source),
                                    ("approximateReceiveCount", receive_count),
                                    ("customerId", customerId),
                                    ("patientId", patientId),
                                    ("sourceFhirServer", sourceFhirServer),
                                    ("bundleResourceType", bundleResourceType),
                                    ("responseTs", responseTs),
                                    ("latencyMs", latencyMs),
                                    ("datastoreId", datastoreId)],
                                   asArr response_items)

/-- The 16 required output columns (the keys of `required_columns`; the dtype
values of that dict are never used by the code). -/
def required_columns : List String :=
  ["s3Filename", "source", "approximateReceiveCount", "customerId",
   "patientId", "sourceFhirServer", "requestResourceId", "bundleResourceType",
   "statusCode", "operationOutcomeLocation", "operationOutcomeSeverity",
   "operationOutcomeCode", "operationOutcomeDetail", "responseTs",
   "latencyMs", "datastoreId"]

/-- `for col in required_columns: if col not in df.columns: df[col] = None`. -/
def required_fill (df : DataFrame) : DataFrame :=
  required_columns.foldl
    (fun d c => if d.columns.contains c then d else setColumn d c .null) df

/-- `pd.to_datetime(df['responseTs'], errors='coerce', utc=True)` applied when
the column has any non-null entry; the element-wise conversion is the
`coerceTs` collaborator (total: coercion failure yields null, never raises). -/
def coerce_responseTs (coerceTs : JsonValue → JsonValue) (df : DataFrame) : DataFrame :=
  if df.columns.contains "responseTs"
      && df.rows.any (fun r => match rowLookupD r "responseTs" with | .null => false | _ => true) then
    { df with rows := df.rows.map (fun r => rowSet r "responseTs" (coerceTs (rowLookupD r "responseTs"))) }
  else df

def flatten_postprocess (coerceTs : JsonValue → JsonValue) (rows : List Row) : DataFrame :=
  coerce_responseTs coerceTs (required_fill (mkDataFrame rows))

/-- `flatten_json(payload, s3_filename, source)`. -/
def flatten_json (coerceTs : JsonValue → JsonValue) (payload : JsonValue)
    (s3_filename source : String) : Except FlatErr DataFrame :=
  match flatten_setup payload s3_filename source with
  | .error e => .error e
  | .ok (metaRow, items) =>
    match flatten_rows metaRow items with
    | .error _ => .error .py
    | .ok rows =>
      match rows with
      | [] => .error .transform
      | _ :: _ => .ok (flatten_postprocess coerceTs rows)

/-! ### Partitioner and path builder -/

/-- A `(date, hour)` pair as rendered by `strftime` with formats
`%Y-%m-%d` and `%H`. -/
structure DateHour where
  date : String
  hour : String
deriving DecidableEq, Repr

/-- The timestamp-or-fallback derivation shared verbatim by
`add_partition_columns` and `generate_output_path`.  `tsParse` models
`datetime.fromisoformat` composed with the two `strftime` calls (`none` is a
`ValueError`); a truthy non-string timestamp raises `AttributeError` at
`.replace`, and both caught exceptions fall back to `nowDH`, the current UTC
date and hour. -/
def derive_date_hour (tsParse : String → Option DateHour) (nowDH : DateHour)
    (response_ts : JsonValue) : DateHour :=
  if truthy response_ts then
    match response_ts with
    | .str s =>
      match tsParse (strReplace s "Z" "+00:00") with
      | some dh => dh
      | none => nowDH
    | _ => nowDH
  else nowDH

/-- `add_partition_columns(df, source, response_ts)`. -/
def add_partition_columns (tsParse : String → Option DateHour) (nowDH : DateHour)
    (df : DataFrame) (source : String) (response_ts : JsonValue) : DataFrame :=
  let dh := derive_date_hour tsParse nowDH response_ts
  setColumn (setColumn (setColumn df "source" (.str source))
    "ingest_date" (.str dh.date)) "hour" (.str dh.hour)

/-- `os.path.basename`: the part after the last slash. -/
def basename (p : String) : String :=
  (strSplitOn p "/").getLastD p

/-- The root of `os.path.splitext`: strip from the last dot (claims exercise
only ordinary `name.json` basenames). -/
def splitext_root (name : String) : String :=
  let parts := strSplitOn name "."
  if parts.length ≤ 1 then name else strIntercalate "." parts.dropLast

/-- `generate_output_path(target_bucket, source, filename, response_ts)`. -/
def generate_output_path (tsParse : String → Option DateHour) (nowDH : DateHour)
    (target_bucket source filename : String) (response_ts : JsonValue) : String :=
  let dh := derive_date_hour tsParse nowDH response_ts
  let base_name := splitext_root (basename filename)
  "s3://" ++ target_bucket ++ "/data/source=" ++ source ++ "/ingest_date=" ++
    dh.date ++ "/hour=" ++ dh.hour ++ "/" ++ base_name ++ ".parquet"

/-! ### Existence check and idempotent writer -/

/-- Outcome of `s3_client.head_object`: success, or an exception carrying an
optional AWS error code and a message (`str(e)`). -/
inductive HeadResult where
  | ok
  | err (code : Option String) (msg : String)
deriving DecidableEq, Repr

abbrev HeadFn := String → String → HeadResult

/-- Bucket of an `s3://bucket/key` path, per `s3_path[5:].split('/', 1)`. -/
def s3PathBucket (s3_path : String) : String :=
  (strSplitOn (strDrop s3_path 5) "/").headD ""

/-- Key of an `s3://bucket/key` path, per `s3_path[5:].split('/', 1)`. -/
def s3PathKey (s3_path : String) : String :=
  strIntercalate "/" (strSplitOn (strDrop s3_path 5) "/").tail

/-- `file_exists_in_s3(s3_path)`: true only when `head_object` succeeds; both
exception branches of the source return `False` (the non-404 branch merely
logs a warning first). -/
def file_exists_in_s3 (head : HeadFn) (s3_path : String) : Bool :=
  if !(strStarts s3_path "s3://") then false
  else
    match head (s3PathBucket s3_path) (s3PathKey s3_path) with
    | .ok => true
    | .err code msg =>
      if code == some "404" || strContains msg "404" then false else false

/-- The 16-column schema list of `write_parquet_to_s3`. -/
def schema_columns : List String :=
  ["s3Filename", "source", "approximateReceiveCount", "customerId",
   "patientId", "sourceFhirServer", "requestResourceId", "bundleResourceType",
   "statusCode", "operationOutcomeLocation", "operationOutcomeSeverity",
   "operationOutcomeCode", "operationOutcomeDetail", "responseTs",
   "latencyMs", "datastoreId"]

/-- `[col for col in schema_columns if col not in ['source','ingest_date','hour']]`. -/
def data_columns : List String :=
  schema_columns.filter (fun c => !(["source", "ingest_date", "hour"].contains c))

def schema_fill (df : DataFrame) : DataFrame :=
  schema_columns.foldl
    (fun d c => if d.columns.contains c then d else setColumn d c .null) df

/-- Outcome of one `write_parquet_to_s3` call: existence-based skip, a
successful single-shot write of the selected body, or `S3WriteError`. -/
inductive WriteResult where
  | skipped
  | written (body : DataFrame)
  | failed
deriving Repr

/-- `write_parquet_to_s3(df, s3_path)`; `putOk` models whether the underlying
`wr.s3.to_parquet` call succeeds. -/
def write_parquet_to_s3 (head : HeadFn) (putOk : Bool) (df : DataFrame)
    (s3_path : String) : WriteResult :=
  if file_exists_in_s3 head s3_path then .skipped
  else
    let body := selectColumns (schema_fill df) data_columns
    if putOk then .written body else .failed

/-- The object store as written state: newest entry first. -/
abbrev S3Store := List (String × DataFrame)

def s3_read_back (store : S3Store) (path : String) : Option DataFrame :=
  (store.find? (fun p => p.1 == path)).map (fun p => p.2)

/-- One writer invocation against a store: a skip or failure leaves the store
unchanged; a successful write stores the selected body at the path. -/
def write_step (store : S3Store) (head : HeadFn) (putOk : Bool) (df : DataFrame)
    (s3_path : String) : WriteResult × S3Store :=
  match write_parquet_to_s3 head putOk df s3_path with
  | .skipped => (.skipped, store)
  | .written body => (.written body, (s3_path, body) :: store)
  | .failed => (.failed, store)

/-! ### Error taxonomy and orchestrator (`lambda_handler`) -/

/-- The `ErrorCategory` enum. -/
inductive ErrorCategory where
  | configuration
  | s3Read
  | s3Write
  | jsonParse
  | jsonValidation
  | dataTransformation
  | partitioning
  | unknown
deriving DecidableEq, Repr

/-- The `.value` strings of the enum members. -/
def ErrorCategory.value : ErrorCategory → String
  | .configuration => "ConfigurationError"
  | .s3Read => "S3ReadError"
  | .s3Write => "S3WriteError"
  | .jsonParse => "JSONParseError"
  | .jsonValidation => "JSONValidationError"
  | .dataTransformation => "DataTransformationError"
  | .partitioning => "PartitioningError"
  | .unknown => "UnknownError"

/-- Exceptions that can escape one record's processing: the six classified
exception classes of the first `except` arm, or `py` for any other Python
exception, caught by the generic arm. -/
inductive PipeErr where
  | s3Read
  | jsonParse
  | jsonValidation
  | dataTransformation
  | s3Write
  | partitioning
  | py
deriving DecidableEq, Repr

/-- Category assigned by the two per-record `except` arms: classified
exceptions carry their own category, everything else is tagged Unknown. -/
def classify : PipeErr → ErrorCategory
  | .s3Read => .s3Read
  | .jsonParse => .jsonParse
  | .jsonValidation => .jsonValidation
  | .dataTransformation => .dataTransformation
  | .s3Write => .s3Write
  | .partitioning => .partitioning
  | .py => .unknown

/-- External collaborators of one invocation, fixed for its duration. -/
structure Env where
  environ : String → Option String
  getObject : String → String → Except Unit String
  loads : String → Option JsonValue
  unquote : String → String
  headObj : HeadFn
  putOk : Bool
  tsParse : String → Option DateHour
  nowDH : DateHour
  coerceTs : JsonValue → JsonValue

structure BucketConfig where
  source_bucket : String
  target_bucket : String
deriving DecidableEq, Repr

/-- `get_bucket_config()`: absent variables fall back to the built-in
defaults; an empty value raises `ValueError`. -/
def get_bucket_config (environ : String → Option String) : Except Unit BucketConfig :=
  let source_bucket := (environ "SOURCE_BUCKET").getD "fhir-lca-persist"
  let target_bucket := (environ "TARGET_BUCKET").getD "fhir-ingest-analytics"
  if source_bucket == "" || target_bucket == "" then .error ()
  else .ok { source_bucket := source_bucket, target_bucket := target_bucket }

/-- `read_json_from_s3(bucket, key)`. -/
def read_json_from_s3 (env : Env) (bucket key : String) : Except PipeErr JsonValue :=
  match env.getObject bucket key with
  | .error _ => .error .s3Read
  | .ok content =>
    match env.loads content with
    | none => .error .jsonParse
    | some data =>
      if !isObj data then .error .jsonValidation
      else if !(objHasKey data "meta" && objHasKey data "response") then .error .jsonValidation
      else
        match getItem data "response" with
        | .error _ => .error .jsonValidation
        | .ok resp =>
          if !isArr resp then .error .jsonValidation
          else .ok data

/-- The bucket/key based fallback chain of the source determination. -/
def fallbackSource (bucket key : String) : String :=
  if strContains bucket "lca-persist" || strContains key "lca-persist" then "lca-persist"
  else if strContains bucket "dxa-persist" || strContains key "dxa-persist" then "dxa-persist"
  else if strContains bucket "lca" || strContains key "lca" then "lca"
  else if strContains bucket "dxa" || strContains key "dxa" then "dxa"
  else "unknown"

def liftPyPipe : Except Unit α → Except PipeErr α
  | .ok a => .ok a
  | .error _ => .error .py

def flatErrToPipe : FlatErr → PipeErr
  | .value => .py
  | .py => .py
  | .transform => .dataTransformation

/-- The `try` body of one loop iteration of `lambda_handler`: extract bucket
and key, read and validate, determine the source tag, flatten, partition,
build the output path, write.  A non-string key fails at `unquote_plus`
(unclassified); a non-string bucket name fails inside the S3 read call and is
classified `S3ReadError`.  The source tag is rendered with `pyStr` (the
function annotation declares it a string).  In this model partitioning is
total, so the `PartitioningError` wrap around `add_partition_columns` has no
failing case. -/
def process_record_core (env : Env) (target_bucket : String) (record : JsonValue) :
    Except PipeErr (String × Nat) :=
  match liftPyPipe (getItem record "s3") with
  | .error e => .error e
  | .ok s3_info =>
    match liftPyPipe (getItem s3_info "bucket") with
    | .error e => .error e
    | .ok bucketObj =>
      match liftPyPipe (getItem bucketObj "name") with
      | .error e => .error e
      | .ok bucketV =>
        match liftPyPipe (getItem s3_info "object") with
        | .error e => .error e
        | .ok objectObj =>
          match liftPyPipe (getItem objectObj "key") with
          | .error e => .error e
          | .ok keyV =>
            match keyV with
            | .str rawKey =>
              let key := env.unquote rawKey
              match bucketV with
              | .str bucket =>
                match read_json_from_s3 env bucket key with
                | .error e => .error e
                | .ok payload =>
                  let s3_filename := basename key
                  match
                    ((if objHasKey payload "meta" then
                      match liftPyPipe (getItem payload "meta") with
                      | .error e => .error e
                      | .ok m =>
                        match liftPyPipe (pyContains m "source") with
                        | .error e => .error e
                        | .ok true =>
                          match liftPyPipe (getItem m "source") with
                          | .error e => .error e
                          | .ok sv => .ok (pyStr sv)
                        | .ok false => .ok (fallbackSource bucket key)
                    else .ok (fallbackSource bucket key)) : Except PipeErr String) with
                  | .error e => .error e
                  | .ok source =>
                    match flatten_json env.coerceTs payload s3_filename source with
                    | .error e => .error (flatErrToPipe e)
                    | .ok df =>
                      match
                        ((if objHasKey payload "meta" then
                          match liftPyPipe (getItem payload "meta") with
                          | .error e => .error e
                          | .ok m =>
                            match liftPyPipe (pyContains m "responseTs") with
                            | .error e => .error e
                            | .ok true => liftPyPipe (getItem m "responseTs")
                            | .ok false => .ok JsonValue.null
                        else .ok JsonValue.null) : Except PipeErr JsonValue) with
                      | .error e => .error e
                      | .ok response_ts =>
                        let df2 := add_partition_columns env.tsParse env.nowDH df source response_ts
                        let output_path := generate_output_path env.tsParse env.nowDH
                          target_bucket source key response_ts
                        match write_parquet_to_s3 env.headObj env.putOk df2 output_path with
                        | .skipped => .ok (output_path, df2.rows.length)
                        | .written _ => .ok (output_path, df2.rows.length)
                        | .failed => .error .s3Write
              | _ => .error .s3Read
            | _ => .error .py

/-- One entry of the `results` array: a success with output path and row
count, or a failure with its classified category. -/
inductive RecordResult where
  | success (output_path : String) (records_processed : Nat)
  | failure (category : ErrorCategory)
deriving DecidableEq, Repr

def RecordResult.isSuccess : RecordResult → Bool
  | .success _ _ => true
  | .failure _ => false

def process_record (env : Env) (target_bucket : String) (record : JsonValue) : RecordResult :=
  match process_record_core env target_bucket record with
  | .ok (p, n) => .success p n
  | .error e => .failure (classify e)

/-- `event.get('Records', [])` combined with `len`/iteration: a list is
iterated as is, an absent key defaults to the empty list, a string or dict is
iterated over its characters or keys, and any other value makes
`len(...)` in the entry log raise before per-record processing begins. -/
def eventRecords (event : JsonValue) : Except Unit (List JsonValue) :=
  match event with
  | .obj fs =>
    match fs.find? (fun p => p.1 == "Records") with
    | none => .ok []
    | some (_, .arr xs) => .ok xs
    | some (_, .str s) => .ok (s.toList.map (fun c => .str (String.singleton c)))
    | some (_, .obj fs2) => .ok (fs2.map (fun p => .str p.1))
    | some (_, _) => .error ()
  | _ => .error ()

/-- Exceptions escaping the outer `try` of `lambda_handler`: the dedicated
`ConfigurationError` arm (dead in this program, since `get_bucket_config`
raises plain `ValueError`) or any other exception. -/
inductive FatalErr where
  | configurationError
  | otherError
deriving DecidableEq, Repr

structure HandlerResponse where
  statusCode : Nat
  error_category : Option String
  results : List RecordResult
  error_breakdown : List (String × Nat)
deriving DecidableEq, Repr

def bump (acc : List (String × Nat)) (k : String) : List (String × Nat) :=
  if acc.any (fun p => p.1 == k) then
    acc.map (fun p => if p.1 == k then (p.1, p.2 + 1) else p)
  else acc ++ [(k, 1)]

/-- The `record_errors` dict accumulated across failed records. -/
def breakdown (results : List RecordResult) : List (String × Nat) :=
  results.foldl
    (fun acc r => match r with | .failure c => bump acc c.value | _ => acc) []

/-- The outer `try` body: the entry log touches the record list first, then
configuration is loaded, then each record is processed in order. -/
def lambda_handler_body (env : Env) (event : JsonValue) :
    Except FatalErr HandlerResponse :=
  match eventRecords event with
  | .error _ => .error .otherError
  | .ok records =>
    match get_bucket_config env.environ with
    | .error _ => .error .otherError
    | .ok cfg =>
      let results := records.map (process_record env cfg.target_bucket)
      let failed := (results.filter (fun r => !r.isSuccess)).length
      .ok { statusCode := if failed == 0 then 200 else 207
            error_category := none
            results := results
            error_breakdown := breakdown results }

/-- `lambda_handler(event, context)`. -/
def lambda_handler (env : Env) (event : JsonValue) : HandlerResponse :=
  match lambda_handler_body env event with
  | .ok resp => resp
  | .error .configurationError =>
    { statusCode := 500, error_category := some ErrorCategory.configuration.value
      results := [], error_breakdown := [] }
  | .error .otherError =>
    { statusCode := 500, error_category := some ErrorCategory.unknown.value
      results := [], error_breakdown := [] }

/-! ### Helper lemmas on rows and frames -/

theorem rowLookup_nil (k : String) : rowLookup ([] : Row) k = none := rfl

theorem rowLookup_cons (p : String × JsonValue) (r : Row) (k : String) :
    rowLookup (p :: r) k = if p.1 = k then some p.2 else rowLookup r k := by
  unfold rowLookup
  by_cases h : p.1 = k
  · rw [List.find?_cons_of_pos _ (by simpa using h)]
    simp [h]
  · rw [List.find?_cons_of_neg _ (by simpa using h)]
    simp [h]

theorem rowLookup_map_upd (r : Row) (k : String) (v : JsonValue) (k' : String) :
    rowLookup (r.map (fun p => if p.1 == k then (k, v) else p)) k' =
      if k' = k then (if r.any (fun p => p.1 == k) then some v else none)
      else rowLookup r k' := by
  induction r with
  | nil => by_cases h : k' = k <;> simp [rowLookup, h]
  | cons p r ih =>
    simp only [List.map_cons, List.any_cons, rowLookup_cons]
    by_cases hp : p.1 = k
    · have hpb : ((p.1 == k) : Bool) = true := by simpa using hp
      rw [if_pos hpb]
      by_cases hk : k' = k
      · rw [if_pos (show (k, v).1 = k' from hk.symm), if_pos hk]
        simp only [hpb, Bool.true_or]
        simp
      · have hkv : ¬ ((k, v).1 = k') := fun hh => hk hh.symm
        have hpk' : ¬ (p.1 = k') := fun hh => hk ((hp.symm.trans hh).symm)
        rw [if_neg hkv, ih, if_neg hk, if_neg hk, if_neg hpk']
    · have hpb : ¬ ((p.1 == k) = true) := by simpa using hp
      rw [if_neg hpb]
      by_cases hpk' : p.1 = k'
      · have hk : ¬ (k' = k) := fun hh => hp (hpk'.trans hh)
        rw [if_pos hpk', if_neg hk, if_pos hpk']
      · rw [if_neg hpk', ih]
        by_cases hk : k' = k
        · have hpf : ((p.1 == k) : Bool) = false := by simpa using hp
          rw [if_pos hk, if_pos hk]
          simp only [hpf, Bool.false_or]
        · rw [if_neg hk, if_neg hk, if_neg hpk']

theorem rowLookup_append_one (r : Row) (k : String) (v : JsonValue) (k' : String)
    (h : r.any (fun p => p.1 == k) = false) :
    rowLookup (r ++ [(k, v)]) k' = if k' = k then some v else rowLookup r k' := by
  induction r with
  | nil =>
    simp only [List.nil_append, rowLookup_cons, rowLookup_nil]
    by_cases hk : k' = k
    · simp [hk]
    · have hkv : ¬ (k = k') := fun hh => hk hh.symm
      simp [hk, hkv]
  | cons p r ih =>
    simp only [List.any_cons, Bool.or_eq_false_iff] at h
    obtain ⟨hp, hr⟩ := h
    have hp' : ¬ (p.1 = k) := by simpa using hp
    simp only [List.cons_append, rowLookup_cons]
    by_cases hpk' : p.1 = k'
    · have hk : ¬ (k' = k) := fun hh => hp' (hpk' ▸ hh ▸ rfl)
      simp [hpk', hk]
    · simp [hpk', ih hr]

theorem rowLookup_rowSet (r : Row) (k : String) (v : JsonValue) (k' : String) :
    rowLookup (rowSet r k v) k' = if k' = k then some v else rowLookup r k' := by
  unfold rowSet
  by_cases hany : r.any (fun p => p.1 == k)
  · rw [if_pos hany, rowLookup_map_upd, hany]
    by_cases hk : k' = k <;> simp [hk]
  · rw [if_neg hany, rowLookup_append_one]
    exact Bool.not_eq_true _ ▸ hany


theorem rowLookup_rowSet_self (r : Row) (k : String) (v : JsonValue) :
    rowLookup (rowSet r k v) k = some v := by
  rw [rowLookup_rowSet]
  simp

theorem rowLookup_rowSet_ne (r : Row) (k : String) (v : JsonValue) (k' : String)
    (h : k' ≠ k) : rowLookup (rowSet r k v) k' = rowLookup r k' := by
  rw [rowLookup_rowSet, if_neg h]

/-! ### Claim C3 -/

/-- Claim C3: a response item whose `statusCode` is present and lies in the
inclusive range [200, 299] contributes zero output rows, and deleting it from
the response array leaves the flattener's row output unchanged at any
position — the filter is exhaustive over the array. -/
theorem C3_two_hundreds_filtered (metaRow : Row) (item : JsonValue) (n : Int)
    (pre post : List JsonValue)
    (hsc : dictGet item "statusCode" = .ok (.int n))
    (hlo : 200 ≤ n) (hhi : n ≤ 299) :
    flatten_item metaRow item = .ok [] ∧
    flatten_rows metaRow (pre ++ item :: post) = flatten_rows metaRow (pre ++ post) := by
  have hskip : statusSkip (.int n) = .ok true := by
    simp [statusSkip, pyLe, hlo, hhi]
  have hitem : flatten_item metaRow item = .ok [] := by
    simp only [flatten_item, hsc, hskip]
  refine ⟨hitem, ?_⟩
  induction pre with
  | nil =>
    cases h2 : flatten_rows metaRow post <;>
      simp [flatten_rows, hitem, h2]
  | cons q pre ih =>
    cases h1 : flatten_item metaRow q <;>
      simp [flatten_rows, h1, ih]

def metaRowW : Row := [("s3Filename", JsonValue.str "f.json")]

def itemSkipW : JsonValue := .obj [("statusCode", .int 204)]

theorem C3_witness :
    dictGet itemSkipW "statusCode" = .ok (.int 204) ∧
    flatten_item metaRowW itemSkipW = .ok [] ∧
    flatten_rows metaRowW [itemSkipW] = flatten_rows metaRowW [] :=
  ⟨rfl,
   (C3_two_hundreds_filtered metaRowW itemSkipW 204 [] [] rfl (by decide) (by decide)).1,
   (C3_two_hundreds_filtered metaRowW itemSkipW 204 [] [] rfl (by decide) (by decide)).2⟩

/-! ### Claims C4 and C5 -/

theorem dictGet_obj_ok (fs : List (String × JsonValue)) (k : String) :
    ∃ v, dictGet (.obj fs) k = .ok v := by
  cases h : fs.find? (fun p => p.1 == k) with
  | none => exact ⟨.null, by simp only [dictGet, h]⟩
  | some p => exact ⟨p.2, by simp only [dictGet, h]⟩

theorem dictGetD_obj_ok (fs : List (String × JsonValue)) (k : String) (d : JsonValue) :
    ∃ v, dictGetD (.obj fs) k d = .ok v := by
  cases h : fs.find? (fun p => p.1 == k) with
  | none => exact ⟨d, by simp only [dictGetD, h]⟩
  | some p => exact ⟨p.2, by simp only [dictGetD, h]⟩

theorem issueRow_obj (row : Row) (fs : List (String × JsonValue)) :
    ∃ a b c, issueRow row (.obj fs) = .ok
      (rowSet (rowSet (rowSet row "operationOutcomeSeverity" a)
        "operationOutcomeCode" b) "operationOutcomeDetail" c) := by
  obtain ⟨a, ha⟩ := dictGet_obj_ok fs "severity"
  obtain ⟨b, hb⟩ := dictGet_obj_ok fs "code"
  obtain ⟨d, hd⟩ := dictGetD_obj_ok fs "details" (.obj [])
  exact ⟨a, b, detOf d, by simp only [issueRow, ha, hb, hd]⟩

theorem issue_rows_shape (row : Row) (issues : List JsonValue)
    (h : ∀ iss ∈ issues, isObj iss = true) :
    ∃ rows, issue_rows row issues = .ok rows ∧ rows.length = issues.length ∧
      ∀ r ∈ rows, ∃ a b c, r =
        rowSet (rowSet (rowSet row "operationOutcomeSeverity" a)
          "operationOutcomeCode" b) "operationOutcomeDetail" c := by
  induction issues with
  | nil => exact ⟨[], rfl, rfl, by simp⟩
  | cons iss rest ih =>
    have hobj1 : isObj iss = true := h iss (List.mem_cons_self _ _)
    obtain ⟨fs, rfl⟩ : ∃ fs, iss = .obj fs := by
      cases iss <;> first | exact ⟨_, rfl⟩ | simp [isObj] at hobj1
    obtain ⟨a, b, c, hir⟩ := issueRow_obj row fs
    obtain ⟨rows, hrows, hlen, hshape⟩ :=
      ih (fun x hx => h x (List.mem_cons_of_mem _ hx))
    refine ⟨rowSet (rowSet (rowSet row "operationOutcomeSeverity" a)
        "operationOutcomeCode" b) "operationOutcomeDetail" c :: rows,
      ?_, by simp [hlen], ?_⟩
    · simp only [issue_rows, hir, hrows]
    · intro r hr
      rw [List.mem_cons] at hr
      rcases hr with rfl | hr
      · exact ⟨a, b, c, rfl⟩
      · exact hshape r hr

theorem dictGet_ok_of_obj {item : JsonValue} {k : String} {v : JsonValue}
    (h : dictGet item k = .ok v) : ∃ fs, item = .obj fs := by
  cases item <;> first | exact ⟨_, rfl⟩ | simp [dictGet] at h

/-- Claim C4: a surviving (non-2xx) response item whose
`operationOutcome.issue` is a non-empty list of N object issues yields exactly
N output rows, any two of which agree on every field other than the three
operationOutcome-derived ones. -/
theorem C4_issue_explosion (metaRow : Row) (item oo sc : JsonValue)
    (issues : List JsonValue)
    (hsc : dictGet item "statusCode" = .ok sc)
    (hskip : statusSkip sc = .ok false)
    (hoo : dictGet item "operationOutcome" = .ok oo)
    (htr : truthy oo = true) (hobj : isObj oo = true)
    (hiss : dictGetD oo "issue" (.arr []) = .ok (.arr issues))
    (hne : issues ≠ [])
    (hobjs : ∀ iss ∈ issues, isObj iss = true) :
    ∃ rows, flatten_item metaRow item = .ok rows ∧
      rows.length = issues.length ∧
      ∀ r1 ∈ rows, ∀ r2 ∈ rows, ∀ k, k ≠ "operationOutcomeSeverity" →
        k ≠ "operationOutcomeCode" → k ≠ "operationOutcomeDetail" →
        rowLookup r1 k = rowLookup r2 k := by
  obtain ⟨ifs, rfl⟩ := dictGet_ok_of_obj hsc
  obtain ⟨rrid, hrrid⟩ := dictGet_obj_ok ifs "requestResourceId"
  obtain ⟨rloc, hrloc⟩ := dictGet_obj_ok ifs "resourceLocation"
  obtain ⟨i, is, rfl⟩ := List.exists_cons_of_ne_nil hne
  obtain ⟨rows, hrows, hlen, hshape⟩ := issue_rows_shape
    (rowMerge metaRow [("requestResourceId", rrid), ("statusCode", sc),
      ("operationOutcomeLocation", rloc)]) (i :: is) hobjs
  refine ⟨rows, ?_, hlen, ?_⟩
  · simp only [flatten_item, hsc, hskip, hrrid, hrloc, hoo, htr, hobj,
      Bool.and_self, if_true, hiss]
    exact hrows
  · intro r1 h1 r2 h2 k hk1 hk2 hk3
    obtain ⟨a1, b1, c1, rfl⟩ := hshape r1 h1
    obtain ⟨a2, b2, c2, rfl⟩ := hshape r2 h2
    rw [rowLookup_rowSet_ne _ _ _ _ hk3, rowLookup_rowSet_ne _ _ _ _ hk2,
        rowLookup_rowSet_ne _ _ _ _ hk1,
        rowLookup_rowSet_ne _ _ _ _ hk3, rowLookup_rowSet_ne _ _ _ _ hk2,
        rowLookup_rowSet_ne _ _ _ _ hk1]

def issC4a : JsonValue := .obj [("severity", .str "error"), ("code", .str "invalid")]

def issC4b : JsonValue := .obj [("severity", .str "warning")]

def itemC4 : JsonValue := .obj [("statusCode", .int 400),
  ("operationOutcome", .obj [("issue", .arr [issC4a, issC4b])])]

theorem C4_witness :
    ∃ rows, flatten_item metaRowW itemC4 = .ok rows ∧ rows.length = 2 := by
  obtain ⟨rows, h1, h2, _⟩ := C4_issue_explosion metaRowW itemC4
    (.obj [("issue", .arr [issC4a, issC4b])]) (.int 400) [issC4a, issC4b]
    rfl rfl rfl rfl rfl rfl (by simp)
    (by
      intro x hx
      rw [List.mem_cons] at hx
      rcases hx with rfl | hx
      · rfl
      · rw [List.mem_cons] at hx
        rcases hx with rfl | hx
        · rfl
        · cases hx)
  exact ⟨rows, h1, h2⟩

/-- Claim C5: a surviving (non-2xx) response item whose `operationOutcome` is
absent or falsy, not an object, or lacks a non-empty issue list yields exactly
one output row, with the three operationOutcome-derived fields null. -/
theorem C5_single_null_row (metaRow : Row) (item sc oo : JsonValue)
    (hsc : dictGet item "statusCode" = .ok sc)
    (hskip : statusSkip sc = .ok false)
    (hoo : dictGet item "operationOutcome" = .ok oo)
    (hcond : truthy oo = false ∨ isObj oo = false ∨
      ∃ issuesV, dictGetD oo "issue" (.arr []) = .ok issuesV ∧ nonEmptyArr issuesV = false) :
    ∃ r, flatten_item metaRow item = .ok [r] ∧
      rowLookup r "operationOutcomeSeverity" = some .null ∧
      rowLookup r "operationOutcomeCode" = some .null ∧
      rowLookup r "operationOutcomeDetail" = some .null := by
  obtain ⟨ifs, rfl⟩ := dictGet_ok_of_obj hsc
  obtain ⟨rrid, hrrid⟩ := dictGet_obj_ok ifs "requestResourceId"
  obtain ⟨rloc, hrloc⟩ := dictGet_obj_ok ifs "resourceLocation"
  refine ⟨rowWithNullOutcome (rowMerge metaRow
    [("requestResourceId", rrid), ("statusCode", sc),
     ("operationOutcomeLocation", rloc)]), ?_, ?_, ?_, ?_⟩
  · by_cases hc : (truthy oo && isObj oo) = true
    · rcases hcond with h | h | ⟨issuesV, hIv, hne⟩
      · rw [Bool.and_eq_true] at hc
        rw [hc.1] at h
        cases h
      · rw [Bool.and_eq_true] at hc
        rw [hc.2] at h
        cases h
      · simp only [flatten_item, hsc, hskip, hrrid, hrloc, hoo, hc, if_true, hIv]
        rcases issuesV with _ | b | n | s | elems | gs
        · rfl
        · rfl
        · rfl
        · rfl
        · cases elems with
          | nil => rfl
          | cons x xs => simp [nonEmptyArr] at hne
        · rfl
    · have hcf : (truthy oo && isObj oo) = false := by
        exact Bool.not_eq_true _ ▸ hc
      simp only [flatten_item, hsc, hskip, hrrid, hrloc, hoo, hcf]
      simp
  · unfold rowWithNullOutcome
    rw [rowLookup_rowSet_ne _ _ _ _ (by decide), rowLookup_rowSet_ne _ _ _ _ (by decide),
        rowLookup_rowSet_self]
  · unfold rowWithNullOutcome
    rw [rowLookup_rowSet_ne _ _ _ _ (by decide), rowLookup_rowSet_self]
  · unfold rowWithNullOutcome
    rw [rowLookup_rowSet_self]

def itemC5 : JsonValue := .obj [("statusCode", .int 404)]

theorem C5_witness :
    ∃ r, flatten_item metaRowW itemC5 = .ok [r] ∧
      rowLookup r "operationOutcomeSeverity" = some .null ∧
      rowLookup r "operationOutcomeCode" = some .null ∧
      rowLookup r "operationOutcomeDetail" = some .null :=
  C5_single_null_row metaRowW itemC5 (.int 404) .null rfl rfl rfl (Or.inl rfl)

/-! ### Claim C6 -/

theorem issue_rows_cons_ne_nil (row : Row) (i : JsonValue) (is : List JsonValue) :
    issue_rows row (i :: is) ≠ .ok [] := by
  intro h
  simp only [issue_rows] at h
  cases h1 : issueRow row i with
  | error e => simp [h1] at h
  | ok r =>
    simp only [h1] at h
    cases h2 : issue_rows row is with
    | error e => simp [h2] at h
    | ok rs => simp [h2] at h

theorem flatten_item_noskip_ne_nil (metaRow : Row) (item : JsonValue) (sc : JsonValue)
    (h1 : dictGet item "statusCode" = .ok sc) (h2 : statusSkip sc = .ok false) :
    flatten_item metaRow item ≠ .ok [] := by
  intro h
  obtain ⟨ifs, rfl⟩ := dictGet_ok_of_obj h1
  obtain ⟨rrid, hrrid⟩ := dictGet_obj_ok ifs "requestResourceId"
  obtain ⟨rloc, hrloc⟩ := dictGet_obj_ok ifs "resourceLocation"
  obtain ⟨oo, hoo⟩ := dictGet_obj_ok ifs "operationOutcome"
  simp only [flatten_item, h1, h2, hrrid, hrloc, hoo] at h
  by_cases hb : (truthy oo && isObj oo) = true
  · have hobj : isObj oo = true := by
      rw [Bool.and_eq_true] at hb
      exact hb.2
    obtain ⟨ofs, rfl⟩ : ∃ ofs, oo = .obj ofs := by
      cases oo <;> first | exact ⟨_, rfl⟩ | simp [isObj] at hobj
    obtain ⟨issuesV, hIv⟩ := dictGetD_obj_ok ofs "issue" (.arr [])
    simp only [hb, if_true, hIv] at h
    rcases issuesV with _ | b | n | s | elems | gs
    · simp at h
    · simp at h
    · simp at h
    · simp at h
    · cases elems with
      | nil => simp at h
      | cons x xs => exact issue_rows_cons_ne_nil _ _ _ h
    · simp at h
  · have hbf : (truthy oo && isObj oo) = false := Bool.not_eq_true _ ▸ hb
    simp only [hbf] at h
    simp at h

theorem flatten_item_nil_iff (metaRow : Row) (item : JsonValue) :
    flatten_item metaRow item = .ok [] ↔
      ∃ sc, dictGet item "statusCode" = .ok sc ∧ statusSkip sc = .ok true := by
  constructor
  · intro h
    cases h1 : dictGet item "statusCode" with
    | error e => simp [flatten_item, h1] at h
    | ok sc =>
      cases h2 : statusSkip sc with
      | error e => simp [flatten_item, h1, h2] at h
      | ok b =>
        cases b with
        | false => exact absurd h (flatten_item_noskip_ne_nil metaRow item sc h1 h2)
        | true => exact ⟨sc, rfl, h2⟩
  · rintro ⟨sc, h1, h2⟩
    simp only [flatten_item, h1, h2]

theorem flatten_rows_nil_iff (metaRow : Row) (items : List JsonValue) :
    flatten_rows metaRow items = .ok [] ↔
      ∀ item ∈ items, flatten_item metaRow item = .ok [] := by
  induction items with
  | nil => simp [flatten_rows]
  | cons item rest ih =>
    constructor
    · intro h
      simp only [flatten_rows] at h
      cases h1 : flatten_item metaRow item with
      | error e => simp [h1] at h
      | ok rs =>
        simp only [h1] at h
        cases h2 : flatten_rows metaRow rest with
        | error e => simp [h2] at h
        | ok rest2 =>
          simp only [h2, Except.ok.injEq] at h
          obtain ⟨hrs, hrest2⟩ := List.append_eq_nil.mp h
          intro x hx
          rw [List.mem_cons] at hx
          rcases hx with rfl | hx
          · rw [h1, hrs]
          · exact ih.mp (hrest2 ▸ h2) x hx
    · intro h
      have h1 : flatten_item metaRow item = .ok [] := h item (List.mem_cons_self _ _)
      have h2 : flatten_rows metaRow rest = .ok [] :=
        ih.mpr (fun x hx => h x (List.mem_cons_of_mem _ hx))
      simp [flatten_rows, h1, h2]

theorem setColumn_rows_length (df : DataFrame) (n : String) (v : JsonValue) :
    (setColumn df n v).rows.length = df.rows.length := by
  simp [setColumn]

theorem fill_fold_rows_length (cols : List String) (df : DataFrame) :
    ((cols.foldl (fun d c => if d.columns.contains c then d
        else setColumn d c .null) df).rows.length) = df.rows.length := by
  induction cols generalizing df with
  | nil => rfl
  | cons c cols ih =>
    simp only [List.foldl_cons]
    rw [ih]
    by_cases h : df.columns.contains c
    · rw [if_pos h]
    · rw [if_neg h, setColumn_rows_length]

theorem coerce_responseTs_rows_length (f : JsonValue → JsonValue) (df : DataFrame) :
    (coerce_responseTs f df).rows.length = df.rows.length := by
  unfold coerce_responseTs
  split <;> simp

theorem flatten_postprocess_rows_length (f : JsonValue → JsonValue) (rows : List Row) :
    (flatten_postprocess f rows).rows.length = rows.length := by
  unfold flatten_postprocess required_fill
  rw [coerce_responseTs_rows_length, fill_fold_rows_length]
  rfl

/-- Claim C6: given a structurally valid payload, the flattener raises its
`DataTransformationError` exactly when every response item is skipped by the
2xx filter (in particular when the response array is empty), and a successful
result never carries an empty row set. -/
theorem C6_transform_iff_empty (coerceTs : JsonValue → JsonValue)
    (payload : JsonValue) (s3fn src : String) (metaRow : Row)
    (items : List JsonValue)
    (hsetup : flatten_setup payload s3fn src = .ok (metaRow, items)) :
    (flatten_json coerceTs payload s3fn src = .error .transform ↔
      ∀ item ∈ items, ∃ sc, dictGet item "statusCode" = .ok sc ∧
        statusSkip sc = .ok true) ∧
    (∀ df, flatten_json coerceTs payload s3fn src = .ok df → df.rows ≠ []) := by
  constructor
  · constructor
    · intro h
      simp only [flatten_json, hsetup] at h
      cases hr : flatten_rows metaRow items with
      | error e => simp [hr] at h
      | ok rows =>
        simp only [hr] at h
        cases rows with
        | nil =>
          intro item hitem
          exact (flatten_item_nil_iff metaRow item).mp
            ((flatten_rows_nil_iff metaRow items).mp hr item hitem)
        | cons r rs => simp at h
    · intro h
      have hr : flatten_rows metaRow items = .ok [] :=
        (flatten_rows_nil_iff metaRow items).mpr
          (fun item hi => (flatten_item_nil_iff metaRow item).mpr (h item hi))
      simp only [flatten_json, hsetup, hr]
  · intro df hdf
    simp only [flatten_json, hsetup] at hdf
    cases hr : flatten_rows metaRow items with
    | error e => simp [hr] at hdf
    | ok rows =>
      simp only [hr] at hdf
      cases rows with
      | nil => simp at hdf
      | cons r rs =>
        simp only [Except.ok.injEq] at hdf
        intro hnil
        have hlen := flatten_postprocess_rows_length coerceTs (r :: rs)
        rw [hdf, hnil] at hlen
        simp at hlen

def metaRowC6 : Row :=
  [("s3Filename", .str "f.json"), ("source", .str "lca"),
   ("approximateReceiveCount", .null), ("customerId", .null),
   ("patientId", .null), ("sourceFhirServer", .null),
   ("bundleResourceType", .null), ("responseTs", .null),
   ("latencyMs", .null), ("datastoreId", .null)]

def payloadC6 : JsonValue := .obj [("meta", .obj []), ("response", .arr [])]

theorem C6_witness :
    flatten_setup payloadC6 "f.json" "lca" = .ok (metaRowC6, []) ∧
    flatten_json id payloadC6 "f.json" "lca" = .error .transform := by
  have hs : flatten_setup payloadC6 "f.json" "lca" = .ok (metaRowC6, []) := rfl
  exact ⟨hs, ((C6_transform_iff_empty id payloadC6 "f.json" "lca" metaRowC6 [] hs).1).mpr
    (fun item hitem => absurd hitem (List.not_mem_nil item))⟩

/-! ### Claim C7 -/

/-- Claim C7: the partitioner derives date and hour from a supplied timestamp
string when it parses (after replacing the trailing literal Z by an explicit
UTC offset), falls back to the current UTC date and hour when the timestamp is
absent or fails to parse (the derivation is a total function — the caught
`ValueError`/`AttributeError` are the `none` branches), and stamps every row
of the invocation with the same `(source, date, hour)` triple, derived
once. -/
theorem C7_partition_rule (tsParse : String → Option DateHour) (nowDH : DateHour)
    (df : DataFrame) (source : String) (response_ts : JsonValue) :
    (∀ s t, response_ts = .str s → s ≠ "" →
      tsParse (strReplace s "Z" "+00:00") = some t →
      derive_date_hour tsParse nowDH response_ts = t) ∧
    (response_ts = .null → derive_date_hour tsParse nowDH response_ts = nowDH) ∧
    (∀ s, response_ts = .str s → tsParse (strReplace s "Z" "+00:00") = none →
      derive_date_hour tsParse nowDH response_ts = nowDH) ∧
    (∀ r ∈ (add_partition_columns tsParse nowDH df source response_ts).rows,
      rowLookup r "source" = some (.str source) ∧
      rowLookup r "ingest_date" =
        some (.str (derive_date_hour tsParse nowDH response_ts).date) ∧
      rowLookup r "hour" =
        some (.str (derive_date_hour tsParse nowDH response_ts).hour)) := by
  refine ⟨?_, ?_, ?_, ?_⟩
  · rintro s t rfl hs hp
    simp [derive_date_hour, truthy, hs, hp]
  · rintro rfl
    simp [derive_date_hour, truthy]
  · rintro s rfl hp
    by_cases hs : s = ""
    · simp [derive_date_hour, truthy, hs]
    · simp [derive_date_hour, truthy, hs, hp]
  · intro r hr
    simp only [add_partition_columns, setColumn, List.map_map] at hr
    obtain ⟨r0, hr0, rfl⟩ := List.mem_map.mp hr
    simp only [Function.comp]
    refine ⟨?_, ?_, ?_⟩
    · rw [rowLookup_rowSet_ne _ _ _ _ (by decide), rowLookup_rowSet_ne _ _ _ _ (by decide),
          rowLookup_rowSet_self]
    · rw [rowLookup_rowSet_ne _ _ _ _ (by decide), rowLookup_rowSet_self]
    · rw [rowLookup_rowSet_self]

def tsParseW : String → Option DateHour :=
  fun s => if s = "2025-12-09T18:31:45+00:00" then some ⟨"2025-12-09", "18"⟩ else none

def nowW : DateHour := ⟨"2026-01-01", "00"⟩

def dfW : DataFrame := mkDataFrame [metaRowW]

def rowC7 : Row :=
  [("s3Filename", .str "f.json"), ("source", .str "lca"),
   ("ingest_date", .str "2025-12-09"), ("hour", .str "18")]

theorem C7_witness :
    derive_date_hour tsParseW nowW (.str "2025-12-09T18:31:45Z") = ⟨"2025-12-09", "18"⟩ ∧
    derive_date_hour tsParseW nowW .null = nowW ∧
    derive_date_hour tsParseW nowW (.str "not-a-date") = nowW ∧
    rowLookup rowC7 "source" = some (.str "lca") ∧
    rowLookup rowC7 "ingest_date" = some (.str "2025-12-09") ∧
    rowLookup rowC7 "hour" = some (.str "18") := by
  have h := C7_partition_rule tsParseW nowW dfW "lca" (.str "2025-12-09T18:31:45Z")
  have h2 := C7_partition_rule tsParseW nowW dfW "lca" .null
  have h3 := C7_partition_rule tsParseW nowW dfW "lca" (.str "not-a-date")
  have hmem : rowC7 ∈ (add_partition_columns tsParseW nowW dfW "lca"
      (.str "2025-12-09T18:31:45Z")).rows := by
    rw [show (add_partition_columns tsParseW nowW dfW "lca"
      (.str "2025-12-09T18:31:45Z")).rows = [rowC7] from rfl]
    exact List.mem_cons_self _ _
  obtain ⟨hsrc, hdate, hhour⟩ := h.2.2.2 rowC7 hmem
  have hder := h.1 "2025-12-09T18:31:45Z" ⟨"2025-12-09", "18"⟩ rfl (by decide) rfl
  exact ⟨hder, h2.2.1 rfl, h3.2.2.1 "not-a-date" rfl rfl, hsrc,
    by rw [hdate, hder], by rw [hhour, hder]⟩

/-! ### Claim C8 -/

/-- Claim C8: when the existence check reports the output location present,
the writer performs no write, raises no error and leaves the store unchanged;
an existence-check exception that is not a definitive 404 signal makes
`file_exists_in_s3` answer false, so the write is still attempted. -/
theorem C8_idempotent_writer (store : S3Store) (head : HeadFn) (putOk : Bool)
    (df : DataFrame) (path : String) (code : Option String) (msg : String) :
    (file_exists_in_s3 head path = true →
      write_step store head putOk df path = (.skipped, store)) ∧
    (strStarts path "s3://" = true →
      head (s3PathBucket path) (s3PathKey path) = .err code msg →
      code ≠ some "404" → strContains msg "404" = false →
      file_exists_in_s3 head path = false ∧
      (write_step store head putOk df path).1 ≠ .skipped) := by
  constructor
  · intro h
    simp [write_step, write_parquet_to_s3, h]
  · intro hstart hhead hcode hmsg
    have hex : file_exists_in_s3 head path = false := by
      simp [file_exists_in_s3, hstart, hhead]
    refine ⟨hex, ?_⟩
    simp only [write_step, write_parquet_to_s3, hex]
    cases putOk <;> simp

def headOkW : HeadFn := fun _ _ => .ok

def headErrW : HeadFn := fun _ _ => .err (some "500") "ServiceUnavailable"

theorem C8_witness :
    write_step [] headOkW true dfW "s3://b/k.parquet" = (.skipped, []) ∧
    file_exists_in_s3 headErrW "s3://b/k.parquet" = false ∧
    (write_step [] headErrW true dfW "s3://b/k.parquet").1 ≠ .skipped := by
  have h1 := (C8_idempotent_writer [] headOkW true dfW "s3://b/k.parquet" none "").1 rfl
  have h2 := (C8_idempotent_writer [] headErrW true dfW "s3://b/k.parquet"
    (some "500") "ServiceUnavailable").2 rfl rfl (by decide) (by decide)
  exact ⟨h1, h2.1, h2.2⟩

/-! ### Claim C9 -/

/-- Claim C9 (amended): a successful write stores a body whose column set is
exactly `data_columns` — the 16-column schema minus the partition columns
(`source`, together with `ingest_date`/`hour`, which are not in the schema
list) — with the row count of the written frame, and reading the path back
returns that very body (identical columns and row count). -/
theorem C9_amended_roundtrip (store : S3Store) (head : HeadFn) (df : DataFrame)
    (path : String) (hex : file_exists_in_s3 head path = false) :
    ∃ body, write_step store head true df path = (.written body, (path, body) :: store) ∧
      s3_read_back ((path, body) :: store) path = some body ∧
      body.columns = data_columns ∧
      body.rows.length = df.rows.length := by
  refine ⟨selectColumns (schema_fill df) data_columns, ?_, ?_, rfl, ?_⟩
  · simp [write_step, write_parquet_to_s3, hex]
  · simp [s3_read_back]
  · simp only [selectColumns, List.length_map, schema_fill]
    exact fill_fold_rows_length schema_columns df

def head404W : HeadFn := fun _ _ => .err (some "404") "404 Not Found"

def pathC9 : String := "s3://tb/x.parquet"

def bodyC9 : DataFrame := selectColumns (schema_fill dfW) data_columns

/-- Claim C9 (counterexample): for a concrete frame, the body actually written
and read back does not carry the 16-field schema — the partition column
`source` is dropped from the written column set. -/
theorem C9_counterexample :
    write_step [] head404W true dfW pathC9 = (.written bodyC9, [(pathC9, bodyC9)]) ∧
    s3_read_back [(pathC9, bodyC9)] pathC9 = some bodyC9 ∧
    bodyC9.columns ≠ schema_columns := by
  refine ⟨rfl, rfl, by decide⟩

theorem C9_witness :
    file_exists_in_s3 head404W pathC9 = false ∧
    ∃ body, write_step [] head404W true dfW pathC9 = (.written body, [(pathC9, body)]) ∧
      s3_read_back [(pathC9, body)] pathC9 = some body ∧
      body.columns = data_columns ∧
      body.rows.length = dfW.rows.length :=
  ⟨rfl, C9_amended_roundtrip [] head404W dfW pathC9 rfl⟩

/-! ### Claim C10 -/

/-- Claim C10: when the correctly spelled `approximateReceiveCount` key holds
a falsy value (0, null, empty), the Python `or` makes the extracted
receive-count equal to the misspelled `approxmiateReceiveCount` key's value,
and that value lands in the shared metadata row's `approximateReceiveCount`
field — a genuine stored 0 under the correct key is overridden whenever the
misspelled key is truthy. -/
theorem C10_receive_count_fallback (fs : List (String × JsonValue))
    (items : List JsonValue) (s3fn src : String) (a : JsonValue)
    (ha : dictGet (.obj fs) "approximateReceiveCount" = .ok a)
    (hfalsy : truthy a = false) :
    receive_count_of (.obj fs) = dictGet (.obj fs) "approxmiateReceiveCount" ∧
    ∃ w metaRow, dictGet (.obj fs) "approxmiateReceiveCount" = .ok w ∧
      flatten_setup (.obj [("meta", .obj fs), ("response", .arr items)]) s3fn src =
        .ok (metaRow, items) ∧
      rowLookup metaRow "approximateReceiveCount" = some w := by
  have hrc : receive_count_of (.obj fs) = dictGet (.obj fs) "approxmiateReceiveCount" := by
    simp only [receive_count_of, ha, hfalsy]
    simp
  refine ⟨hrc, ?_⟩
  obtain ⟨w, hw⟩ := dictGet_obj_ok fs "approxmiateReceiveCount"
  obtain ⟨cid, hcid⟩ := dictGet_obj_ok fs "organizationId"
  obtain ⟨pid, hpid⟩ := dictGet_obj_ok fs "patientId"
  obtain ⟨sfs, hsfs⟩ := dictGet_obj_ok fs "sourceFhirServer"
  obtain ⟨brt, hbrt⟩ := dictGet_obj_ok fs "bundleResourceType"
  obtain ⟨rts, hrts⟩ := dictGet_obj_ok fs "responseTs"
  obtain ⟨lms, hlms⟩ := dictGet_obj_ok fs "latencyMs"
  obtain ⟨dsid, hdsid⟩ := dictGet_obj_ok fs "datastoreId"
  refine ⟨w, [("s3Filename", .str s3fn), ("source", .str src),
    ("approximateReceiveCount", w), ("customerId", cid), ("patientId", pid),
    ("sourceFhirServer", sfs), ("bundleResourceType", brt), ("responseTs", rts),
    ("latencyMs", lms), ("datastoreId", dsid)], hw, ?_, ?_⟩
  · have h1 : liftPy (receive_count_of (.obj fs)) = (.ok w : Except FlatErr JsonValue) := by
      rw [hrc.trans hw]
      rfl
    have h2 : liftPy (dictGet (.obj fs) "organizationId") = (.ok cid : Except FlatErr JsonValue) := by
      rw [hcid]
      rfl
    have h3 : liftPy (dictGet (.obj fs) "patientId") = (.ok pid : Except FlatErr JsonValue) := by
      rw [hpid]
      rfl
    have h4 : liftPy (dictGet (.obj fs) "sourceFhirServer") = (.ok sfs : Except FlatErr JsonValue) := by
      rw [hsfs]
      rfl
    have h5 : liftPy (dictGet (.obj fs) "bundleResourceType") = (.ok brt : Except FlatErr JsonValue) := by
      rw [hbrt]
      rfl
    have h6 : liftPy (dictGet (.obj fs) "responseTs") = (.ok rts : Except FlatErr JsonValue) := by
      rw [hrts]
      rfl
    have h7 : liftPy (dictGet (.obj fs) "latencyMs") = (.ok lms : Except FlatErr JsonValue) := by
      rw [hlms]
      rfl
    have h8 : liftPy (dictGet (.obj fs) "datastoreId") = (.ok dsid : Except FlatErr JsonValue) := by
      rw [hdsid]
      rfl
    have g1 : liftPy (pyContains (JsonValue.obj [("meta", JsonValue.obj fs),
        ("response", JsonValue.arr items)]) "meta") = (.ok true : Except FlatErr Bool) := rfl
    have g2 : liftPy (pyContains (JsonValue.obj [("meta", JsonValue.obj fs),
        ("response", JsonValue.arr items)]) "response") = (.ok true : Except FlatErr Bool) := rfl
    have g3 : liftPy (getItem (JsonValue.obj [("meta", JsonValue.obj fs),
        ("response", JsonValue.arr items)]) "meta") =
        (.ok (JsonValue.obj fs) : Except FlatErr JsonValue) := rfl
    have g4 : liftPy (getItem (JsonValue.obj [("meta", JsonValue.obj fs),
        ("response", JsonValue.arr items)]) "response") =
        (.ok (JsonValue.arr items) : Except FlatErr JsonValue) := rfl
    simp [flatten_setup, g1, g2, g3, g4, h1, h2, h3, h4, h5, h6, h7, h8, truthy,
      asArr, isArr]
  · simp [rowLookup, List.find?]

def metaC10 : JsonValue :=
  .obj [("approximateReceiveCount", .int 0), ("approxmiateReceiveCount", .int 5)]

def payloadC10 : JsonValue := .obj [("meta", metaC10), ("response", .arr [])]

theorem C10_witness :
    receive_count_of metaC10 = .ok (.int 5) ∧
    ∃ w metaRow, dictGet metaC10 "approxmiateReceiveCount" = .ok w ∧
      flatten_setup payloadC10 "f.json" "lca" = .ok (metaRow, []) ∧
      rowLookup metaRow "approximateReceiveCount" = some w := by
  have h := C10_receive_count_fallback
    [("approximateReceiveCount", .int 0), ("approxmiateReceiveCount", .int 5)]
    [] "f.json" "lca" (.int 0) rfl rfl
  exact ⟨h.1.trans rfl, h.2⟩

/-! ### Claim C1 -/

def dhNull : DateHour := ⟨"1970-01-01", "00"⟩

def envNoVars : Env :=
  { environ := fun _ => none
    getObject := fun _ _ => .error ()
    loads := fun _ => none
    unquote := id
    headObj := fun _ _ => .err (some "404") "404"
    putOk := true
    tsParse := fun _ => none
    nowDH := dhNull
    coerceTs := id }

/-- Claim C1 (counterexample): with both configuration variables absent from
the environment, the invocation does not raise a Configuration fault — the
built-in defaults are substituted and an empty batch completes with
statusCode 200, not 500. -/
theorem C1_counterexample :
    envNoVars.environ "SOURCE_BUCKET" = none ∧
    envNoVars.environ "TARGET_BUCKET" = none ∧
    (lambda_handler envNoVars (.obj [])).statusCode = 200 ∧
    (lambda_handler envNoVars (.obj [])).statusCode ≠ 500 :=
  ⟨rfl, rfl, rfl, by decide⟩

/-- Claim C1 (amended): an absent configuration variable is replaced by its
built-in default and the invocation proceeds normally; only a variable that is
present but empty makes configuration loading raise, and because it raises
`ValueError` — not `ConfigurationError` — the 500 response carries the
Unknown error category. -/
theorem C1_amended_config (environ : String → Option String) (env : Env)
    (event : JsonValue)
    (h1 : environ "SOURCE_BUCKET" = none) (h2 : environ "TARGET_BUCKET" = none)
    (h3 : env.environ "SOURCE_BUCKET" = some "") :
    get_bucket_config environ =
      .ok { source_bucket := "fhir-lca-persist",
            target_bucket := "fhir-ingest-analytics" } ∧
    (lambda_handler env event).statusCode = 500 ∧
    (lambda_handler env event).error_category = some "UnknownError" := by
  have hcfg : get_bucket_config env.environ = .error () := by
    simp [get_bucket_config, h3]
  have hresp : lambda_handler env event =
      { statusCode := 500, error_category := some ErrorCategory.unknown.value,
        results := [], error_breakdown := [] } := by
    cases hrec : eventRecords event with
    | error e => simp [lambda_handler, lambda_handler_body, hrec]
    | ok records => simp [lambda_handler, lambda_handler_body, hrec, hcfg]
  refine ⟨?_, ?_, ?_⟩
  · simp [get_bucket_config, h1, h2]
  · rw [hresp]
  · rw [hresp]
    rfl

def envEmptySrc : Env :=
  { envNoVars with environ := fun k => if k = "SOURCE_BUCKET" then some "" else none }

theorem C1_witness :
    get_bucket_config envNoVars.environ =
      .ok { source_bucket := "fhir-lca-persist",
            target_bucket := "fhir-ingest-analytics" } ∧
    (lambda_handler envEmptySrc (.obj [])).statusCode = 500 ∧
    (lambda_handler envEmptySrc (.obj [])).error_category = some "UnknownError" :=
  C1_amended_config envNoVars.environ envEmptySrc (.obj []) rfl rfl rfl

/-! ### Claim C2 -/

theorem filter_nil_all {α} (p : α → Bool) (l : List α) (h : l.filter p = []) :
    ∀ a ∈ l, p a = false := by
  induction l with
  | nil => simp
  | cons x xs ih =>
    intro a ha
    rw [List.filter_cons] at h
    by_cases hx : p x
    · rw [if_pos hx] at h
      cases h
    · rw [if_neg hx] at h
      rw [List.mem_cons] at ha
      rcases ha with rfl | ha
      · exact Bool.not_eq_true _ ▸ hx
      · exact ih h a ha

theorem filter_ne_nil_exists {α} (p : α → Bool) (l : List α) (h : l.filter p ≠ []) :
    ∃ a ∈ l, p a = true := by
  induction l with
  | nil => exact absurd rfl h
  | cons x xs ih =>
    rw [List.filter_cons] at h
    by_cases hx : p x
    · exact ⟨x, List.mem_cons_self _ _, hx⟩
    · rw [if_neg hx] at h
      obtain ⟨a, ha, hpa⟩ := ih h
      exact ⟨a, List.mem_cons_of_mem _ ha, hpa⟩

/-- Claim C2: with valid configuration and a list of trigger records, the
handler produces exactly one per-record result entry per record (a failure in
one record never aborts the rest), and the batch statusCode is 200 exactly
when every entry succeeded and 207 exactly when at least one entry failed. -/
theorem C2_batch_isolation (env : Env) (event : JsonValue) (cfg : BucketConfig)
    (records : List JsonValue)
    (hrec : eventRecords event = .ok records)
    (hcfg : get_bucket_config env.environ = .ok cfg) :
    (lambda_handler env event).results =
      records.map (process_record env cfg.target_bucket) ∧
    (lambda_handler env event).results.length = records.length ∧
    ((lambda_handler env event).statusCode = 200 ↔
      ∀ r ∈ (lambda_handler env event).results, r.isSuccess = true) ∧
    ((lambda_handler env event).statusCode = 207 ↔
      ∃ r ∈ (lambda_handler env event).results, r.isSuccess = false) := by
  have hh : lambda_handler env event =
      { statusCode :=
          if ((records.map (process_record env cfg.target_bucket)).filter
            (fun r => !r.isSuccess)).length == 0 then 200 else 207
        error_category := none
        results := records.map (process_record env cfg.target_bucket)
        error_breakdown :=
          breakdown (records.map (process_record env cfg.target_bucket)) } := by
    simp [lambda_handler, lambda_handler_body, hrec, hcfg]
  have hres : (lambda_handler env event).results =
      records.map (process_record env cfg.target_bucket) := by
    rw [hh]
  have hsc : (lambda_handler env event).statusCode =
      if ((records.map (process_record env cfg.target_bucket)).filter
        (fun r => !r.isSuccess)).length == 0 then 200 else 207 := by
    rw [hh]
  refine ⟨hres, by rw [hres]; simp, ?_, ?_⟩
  · rw [hsc, hres]
    by_cases hf : (records.map (process_record env cfg.target_bucket)).filter
        (fun r => !r.isSuccess) = []
    · rw [hf]
      refine iff_of_true rfl ?_
      intro r hr
      have hfa := filter_nil_all _ _ hf r hr
      cases hs : r.isSuccess
      · rw [hs] at hfa
        cases hfa
      · rfl
    · have hlen : ((records.map (process_record env cfg.target_bucket)).filter
          (fun r => !r.isSuccess)).length ≠ 0 :=
        fun h0 => hf (List.length_eq_zero.mp h0)
      have hne : ¬ ((((records.map (process_record env cfg.target_bucket)).filter
          (fun r => !r.isSuccess)).length == 0) = true) :=
        fun hb => hlen (beq_iff_eq.mp hb)
      rw [if_neg hne]
      obtain ⟨x, hxL, hxP⟩ := filter_ne_nil_exists _ _ hf
      refine iff_of_false (by decide) ?_
      intro hall
      have := hall x hxL
      rw [this] at hxP
      exact absurd hxP (by decide)
  · rw [hsc, hres]
    by_cases hf : (records.map (process_record env cfg.target_bucket)).filter
        (fun r => !r.isSuccess) = []
    · rw [hf]
      refine iff_of_false ?_ ?_
      · intro h27
        have : (200 : Nat) = 207 := by
          rw [show (if ((([] : List RecordResult).length == 0) = true) then 200 else 207)
            = 200 from rfl] at h27
          exact h27
        exact absurd this (by decide)
      · rintro ⟨r, hrL, hrF⟩
        have hfa := filter_nil_all _ _ hf r hrL
        cases hs : r.isSuccess
        · rw [hs] at hfa
          cases hfa
        · rw [hs] at hrF
          cases hrF
    · have hlen : ((records.map (process_record env cfg.target_bucket)).filter
          (fun r => !r.isSuccess)).length ≠ 0 :=
        fun h0 => hf (List.length_eq_zero.mp h0)
      have hne : ¬ ((((records.map (process_record env cfg.target_bucket)).filter
          (fun r => !r.isSuccess)).length == 0) = true) :=
        fun hb => hlen (beq_iff_eq.mp hb)
      rw [if_neg hne]
      obtain ⟨x, hxL, hxP⟩ := filter_ne_nil_exists _ _ hf
      refine iff_of_true rfl ⟨x, hxL, ?_⟩
      cases hs : x.isSuccess
      · rfl
      · rw [hs] at hxP
        exact absurd hxP (by decide)

def payloadGoodW : JsonValue :=
  .obj [("meta", .obj [("source", .str "lca")]),
        ("response", .arr [.obj [("statusCode", .int 404)]])]

def payloadBadW : JsonValue :=
  .obj [("meta", .obj []), ("response", .arr [])]

def env2 : Env :=
  { environ := fun _ => none
    getObject := fun _ k => if k = "good.json" then .ok "GOOD" else .ok "BAD"
    loads := fun s => if s = "GOOD" then some payloadGoodW
      else if s = "BAD" then some payloadBadW else none
    unquote := id
    headObj := fun _ _ => .err (some "404") "404"
    putOk := true
    tsParse := fun _ => none
    nowDH := dhNull
    coerceTs := id }

def recGoodW : JsonValue :=
  .obj [("s3", .obj [("bucket", .obj [("name", .str "b")]),
                     ("object", .obj [("key", .str "good.json")])])]

def recBadW : JsonValue :=
  .obj [("s3", .obj [("bucket", .obj [("name", .str "b")]),
                     ("object", .obj [("key", .str "bad.json")])])]

def event2 : JsonValue := .obj [("Records", .arr [recGoodW, recBadW])]

def cfg2 : BucketConfig :=
  { source_bucket := "fhir-lca-persist", target_bucket := "fhir-ingest-analytics" }

theorem C2_witness :
    eventRecords event2 = .ok [recGoodW, recBadW] ∧
    get_bucket_config env2.environ = .ok cfg2 ∧
    (lambda_handler env2 event2).results =
      [process_record env2 "fhir-ingest-analytics" recGoodW,
       process_record env2 "fhir-ingest-analytics" recBadW] ∧
    process_record env2 "fhir-ingest-analytics" recBadW =
      .failure .dataTransformation ∧
    (process_record env2 "fhir-ingest-analytics" recGoodW).isSuccess = true ∧
    (lambda_handler env2 event2).statusCode = 207 := by
  have h := C2_batch_isolation env2 event2 cfg2 [recGoodW, recBadW] rfl rfl
  refine ⟨rfl, rfl, h.1, rfl, rfl, ?_⟩
  refine h.2.2.2.mpr ⟨process_record env2 "fhir-ingest-analytics" recBadW, ?_, rfl⟩
  rw [h.1]
  exact List.mem_cons_of_mem _ (List.mem_cons_self _ _)

end LambdaFn
